import Mathlib

/-!
Verification of the up/down market resolver of the aibingwa-telegram-bot
repository (src/src/journal.js, src/src/polymarket.js and the unnamed
resolver variants).  The JavaScript code is shallowly embedded: JSON
values become the inductive `JVal`, JavaScript numbers (which may be NaN
or an infinity) become `JNum`, network calls become explicit environments
passed to the resolver functions together with an explicit trace of the
calls that were issued.
-/

/-- JSON values, the shape of data returned by the Gamma/CLOB endpoints. -/
inductive JVal : Type where
  | null : JVal
  | boolean : Bool → JVal
  | num : ℚ → JVal
  | str : String → JVal
  | arr : List JVal → JVal
  | obj : List (String × JVal) → JVal

/-- The result of a JavaScript numeric conversion or computation: either a
finite value (JSON numbers are exact decimals, embedded as rationals) or one
of the non-finite sentinels `NaN`, `Infinity`, `-Infinity`. -/
inductive JNum : Type where
  | nan : JNum
  | inf : JNum
  | negInf : JNum
  | val : ℚ → JNum
deriving DecidableEq, Repr

/-- `Number.isFinite` of JavaScript: true exactly on finite values. -/
def JNum.isFinite : JNum → Bool
  | .val _ => true
  | _ => false

/-- `Math.floor` of JavaScript: floors finite values, fixes NaN/±Infinity. -/
def JNum.floor : JNum → JNum
  | .val q => .val ⌊q⌋
  | n => n

/-- `Number.isFinite(x) ? x : null`, the snapshot-price normalisation used
throughout the source. -/
def JNum.finiteOrNull : JNum → Option ℚ
  | .val q => some q
  | _ => none

/-- `String.prototype.toLowerCase`, embedded character-wise over the
string's character list. -/
def jsToLower (s : String) : String := ⟨s.data.map Char.toLower⟩

/-- `String.prototype.trim`, embedded over the character list: strip
whitespace from both ends. -/
def jsTrim (s : String) : String :=
  ⟨((s.data.dropWhile Char.isWhitespace).reverse.dropWhile Char.isWhitespace).reverse⟩

/-- JavaScript truthiness of a JSON value (used by `.filter(Boolean)`). -/
def JVal.truthy : JVal → Bool
  | .null => false
  | .boolean b => b
  | .num q => decide (q ≠ 0)
  | .str s => decide (s ≠ "")
  | .arr _ => true
  | .obj _ => true

/-! ### Decimal rendering of integers

JavaScript template interpolation (`` `${ts}` ``) renders an integer in
decimal notation.  `natDecDigits`/`natDecRepr`/`intDecRepr` is that decimal
rendering, written with explicit fuel so that the definitions reduce in the
kernel; injectivity is proved below via the evaluation map `ofDigitsLE`. -/

/-- Little-endian decimal digits of `n`, with fuel (`fuel > n` suffices). -/
def natDecDigitsF : ℕ → ℕ → List ℕ
  | 0, _ => []
  | f + 1, n => if n < 10 then [n] else n % 10 :: natDecDigitsF f (n / 10)

/-- Little-endian decimal digits of a natural number. -/
def natDecDigits (n : ℕ) : List ℕ := natDecDigitsF (n + 1) n

/-- Value of a little-endian digit list. -/
def ofDigitsLE : List ℕ → ℕ
  | [] => 0
  | d :: ds => d + 10 * ofDigitsLE ds

/-- The character of one decimal digit. -/
def decDigitChar (d : ℕ) : Char := Char.ofNat (48 + d)

/-- Decimal string of a natural number (most significant digit first). -/
def natDecRepr (n : ℕ) : String := ((natDecDigits n).reverse.map decDigitChar).asString

/-- Decimal string of an integer, as JavaScript renders an integer. -/
def intDecRepr (i : ℤ) : String :=
  if i < 0 then "-" ++ natDecRepr i.natAbs else natDecRepr i.natAbs

/-! ### Slug construction and the deterministic candidate list

`src/src/journal.js` (resolveUpDownBySlug) and `src/unnamed/part_004`
(resolveUpDownViaSlug) build candidate slugs with the template
`` `${alias}-updown-${interval}-${ts}` `` and iterate with an outer loop
over the window starts `[windowStart, windowStart - d, windowStart + d]`
and an inner loop over the asset aliases. -/

/-- The map `INTERVAL_SECONDS` of journal.js and part_004. -/
def INTERVAL_SECONDS (interval : String) : Option ℕ :=
  if interval = "5m" then some 300
  else if interval = "15m" then some 900
  else none

/-- The table `ASSET_ALIASES` (journal.js) / `ASSET_VARIANTS` (part_004). -/
def ASSET_ALIASES (asset : String) : Option (List String) :=
  if asset = "btc" then some ["btc", "bitcoin"]
  else if asset = "eth" then some ["eth", "ethereum"]
  else if asset = "sol" then some ["sol", "solana"]
  else if asset = "xrp" then some ["xrp", "ripple"]
  else none

/-- `ASSET_ALIASES[asset] ?? [asset]`: an unknown asset is its own alias. -/
def aliasesFor (asset : String) : List String :=
  (ASSET_ALIASES asset).getD [asset]

/-- `floorToWindowStart` of journal.js: `Math.floor(sec / windowSize) * windowSize`
for a non-negative number of seconds (part_004 and part_003 inline the same
expression). -/
def floorToWindowStart (sec windowSizeSec : ℕ) : ℕ :=
  sec / windowSizeSec * windowSizeSec

/-- The candidate window starts, in source order: current window, previous
window, next window. -/
def candidateStarts (windowStart : ℤ) (windowSize : ℕ) : List ℤ :=
  [windowStart, windowStart - windowSize, windowStart + windowSize]

/-- The slug template `` `${a}-updown-${interval}-${ts}` ``. -/
def mkSlug (a interval : String) (ts : ℤ) : String :=
  a ++ "-updown-" ++ interval ++ "-" ++ intDecRepr ts

/-- The flat candidate-slug list: outer loop over window starts, inner loop
over aliases, exactly as the nested `for` loops of the source iterate. -/
def genSlugCandidates (aliases : List String) (interval : String)
    (starts : List ℤ) : List String :=
  starts.flatMap fun ts => aliases.map fun a => mkSlug a interval ts

/-- An alias contains no dash character. -/
def noDash (a : String) : Prop := '-' ∉ a.data

instance (a : String) : Decidable (noDash a) := by
  unfold noDash; infer_instance

/-! ### JSON parsing and market validation

`JSON.parse` and `Number` are JavaScript builtins (environment, not code of
this repository); the embedding abstracts them as parameters. -/

/-- The builtin `JSON.parse`, abstracted: `none` when parsing throws. -/
abbrev JsonParse := String → Option JVal

/-- The builtin `Number(x)` conversion, abstracted. -/
abbrev NumberConv := JVal → JNum

/-- `safeParseArray` of part_004 (lines 50-61; identical copies live in
part_000, part_003 and polymarket.js): a native array is returned as is, a
string is parsed and kept only when it parses to an array, anything else
yields the empty list. -/
def safeParseArray (parse : JsonParse) : JVal → List JVal
  | .arr xs => xs
  | .str s =>
    match parse s with
    | some (.arr v) => v
    | _ => []
  | _ => []

/-- A Gamma market record, restricted to the fields the resolvers read. -/
structure Market where
  clobTokenIds : JVal := .null

/-- A Gamma event record.  The source guards `ev?.markets` with
`Array.isArray(ev.markets) ? ev.markets : []`; that normalisation is
absorbed into the typed `markets` field. -/
structure Event where
  title : Option String := none
  question : Option String := none
  slug : Option String := none
  markets : List Market := []

/-- `parseTokenIdsFromMarket` of journal.js (lines 198-212): same dispatch
as `safeParseArray`, applied to the `clobTokenIds` field. -/
def parseTokenIdsFromMarket (parse : JsonParse) (market : Market) : List JVal :=
  match market.clobTokenIds with
  | .arr raw => raw
  | .str raw =>
    match parse raw with
    | some (.arr parsed) => parsed
    | _ => []
  | _ => []

/-- `pickBestMarketFromEvent` of journal.js (lines 214-224): the first
market whose parsed token-id list has at least 2 entries, if any. -/
def pickBestMarketFromEvent (parse : JsonParse) (ev : Event) : Option Market :=
  ev.markets.find? fun m => 2 ≤ (parseTokenIdsFromMarket parse m).length

/-- JavaScript `x || y` on an optional string: `undefined` and the empty
string are both falsy. -/
def strOr (x : Option String) (y : String) : String :=
  match x with
  | some s => if s = "" then y else s
  | none => y

/-! ### The deterministic slug resolvers, with explicit network traces -/

/-- One outbound network request of a deterministic resolver. -/
inductive NetCall where
  | timeCall : NetCall
  | eventCall : String → NetCall
  | midsCall : List JVal → NetCall

/-- The remote services consumed by the deterministic resolvers.  `nowSec`
is the (successful) result of the CLOB `/time` fetch; `eventBySlug` is the
Gamma event-by-slug fetch (`.error` = thrown, e.g. a 404, carrying the
message the `catch` block derives); `midpoints` is the CLOB midpoint fetch,
returning a map from token id to JSON value. -/
structure GammaClobEnv where
  nowSec : ℕ
  eventBySlug : String → Except String Event
  midpoints : List JVal → Except String (JVal → Option JVal)

/-- `clobMidpoints` of journal.js (lines 162-177): falsy ids are filtered
out and an empty id list returns `{}` without any network call. -/
def clobMidpoints (env : GammaClobEnv) (tokenIds : List JVal) :
    Except String (JVal → Option JVal) × List NetCall :=
  let ids := tokenIds.filter JVal.truthy
  if ids.isEmpty then (.ok fun _ => none, [])
  else (env.midpoints ids, [.midsCall ids])

/-- The resolution result object (journal.js and part_004 return objects of
this shape; fields absent from a given return are `none`). -/
structure SlugResult where
  found : Bool
  triedSlugs : List String := []
  lastError : Option String := none
  slug : Option String := none
  title : Option String := none
  upTokenId : Option JVal := none
  downTokenId : Option JVal := none
  upMid : Option JNum := none
  downMid : Option JNum := none
  windowStart : Option ℤ := none

namespace Journal

/-- `mids?.[tokenId] != null ? Number(mids[tokenId]) : null` (journal.js
lines 276-277): a missing or JSON-null entry yields null, anything else is
converted by `Number` with no finiteness or range check. -/
def midOf (numConv : NumberConv) (mids : JVal → Option JVal)
    (tokenId : JVal) : Option JNum :=
  match mids tokenId with
  | some JVal.null => none
  | some v => some (numConv v)
  | none => none

/-- The candidate loop of `resolveUpDownBySlug` (journal.js lines 251-297).
`pairs` enumerates the iterations of the two nested `for` loops in order
(outer window starts, inner aliases); `tried` and `lastError` thread the
mutable locals.  Returns the result and the trace of network calls. -/
def slugLoop (env : GammaClobEnv) (numConv : NumberConv) (parse : JsonParse)
    (interval : String) :
    List (ℤ × String) → List String → Option String → SlugResult × List NetCall
  | [], tried, lastError =>
    ({ found := false, triedSlugs := tried.take 10, lastError := lastError }, [])
  | (ts, a) :: rest, tried, lastError =>
    let slug := mkSlug a interval ts
    let tried' := tried ++ [slug]
    match env.eventBySlug slug with
    | .error e =>
      let (res, calls) := slugLoop env numConv parse interval rest tried' (some e)
      (res, .eventCall slug :: calls)
    | .ok ev =>
      match pickBestMarketFromEvent parse ev with
      | none =>
        let (res, calls) := slugLoop env numConv parse interval rest tried'
          (some ("No markets/tokenIds inside Gamma event for slug=" ++ slug))
        (res, .eventCall slug :: calls)
      | some market =>
        match parseTokenIdsFromMarket parse market with
        | upTokenId :: downTokenId :: _ =>
          let (midsRes, midCalls) := clobMidpoints env [upTokenId, downTokenId]
          match midsRes with
          | .error e =>
            let (res, calls) := slugLoop env numConv parse interval rest tried' (some e)
            (res, .eventCall slug :: (midCalls ++ calls))
          | .ok mids =>
            ({ found := true, slug := some slug,
               title := some (jsTrim (strOr ev.title (strOr ev.question slug))),
               upTokenId := some upTokenId, downTokenId := some downTokenId,
               upMid := midOf numConv mids upTokenId,
               downMid := midOf numConv mids downTokenId },
             .eventCall slug :: midCalls)
        | _ =>
          -- unreachable: `pickBestMarketFromEvent` guarantees ≥ 2 token ids
          -- (this arm mirrors the source's `tokenIds.length < 2` re-check)
          let (res, calls) := slugLoop env numConv parse interval rest tried'
            (some ("Gamma market missing tokenIds for slug=" ++ slug))
          (res, .eventCall slug :: calls)

/-- `resolveUpDownBySlug` of journal.js (lines 234-304), returning the
result together with the trace of network calls issued. -/
def resolveUpDownBySlug (env : GammaClobEnv) (numConv : NumberConv)
    (parse : JsonParse) (asset interval : String) : SlugResult × List NetCall :=
  match INTERVAL_SECONDS interval with
  | none =>
    ({ found := false, triedSlugs := [],
       lastError := some ("Unsupported interval: " ++ interval
         ++ " (supported: 5m, 15m)") }, [])
  | some windowSize =>
    let aliases := aliasesFor asset
    let windowStart : ℤ := floorToWindowStart env.nowSec windowSize
    let pairs := (candidateStarts windowStart windowSize).flatMap
      fun ts => aliases.map fun a => (ts, a)
    let (res, calls) := slugLoop env numConv parse interval pairs [] none
    (res, .timeCall :: calls)

end Journal

namespace Part004

/-- The environment of part_004: `eventBySlug` already includes the
`gammaEventBySlug` normalisation of lines 89-97 (array payload → first
element, non-object payload → null), hence the `Option Event`. -/
structure Env where
  nowSec : ℕ
  eventBySlug : String → Except String (Option Event)
  midpoints : List JVal → Except String (JVal → Option JVal)

/-- `clobMidpoints` of part_004 (lines 76-86): same behaviour as the
journal.js copy (falsy ids filtered, empty list short-circuits to `{}`). -/
def clobMidpoints (env : Env) (tokenIds : List JVal) :
    Except String (JVal → Option JVal) × List NetCall :=
  let ids := tokenIds.filter JVal.truthy
  if ids.isEmpty then (.ok fun _ => none, [])
  else (env.midpoints ids, [.midsCall ids])

/-- `pickTitle` of part_004 (lines 99-106). -/
def pickTitle (ev : Event) : String :=
  strOr ev.title (strOr ev.question (strOr ev.slug "Up/Down Market"))

/-- The candidate loop of `resolveUpDownViaSlug` (part_004 lines 127-173).
Note `triedSlugs.unshift(slug)`: the slug list is accumulated newest first.
`lastError` is a string initialised to `""`. -/
def slugLoop (env : Env) (numConv : NumberConv) (parse : JsonParse)
    (interval : String) (windowStart : ℤ) :
    List (ℤ × String) → List String → String → SlugResult × List NetCall
  | [], tried, lastError =>
    ({ found := false, windowStart := some windowStart, triedSlugs := tried,
       lastError := some (if lastError = "" then "Unknown failure" else lastError) }, [])
  | (ts, name) :: rest, tried, lastError =>
    let slug := mkSlug name interval ts
    let tried' := slug :: tried
    match env.eventBySlug slug with
    | .error e =>
      let (res, calls) := slugLoop env numConv parse interval windowStart rest tried' e
      (res, .eventCall slug :: calls)
    | .ok none =>
      let (res, calls) := slugLoop env numConv parse interval windowStart rest tried'
        ("Gamma returned empty for slug=" ++ slug)
      (res, .eventCall slug :: calls)
    | .ok (some ev) =>
      let tokenIds := match ev.markets.head? with
        | some m0 => safeParseArray parse m0.clobTokenIds
        | none => safeParseArray parse .null
      match tokenIds with
      | upTokenId :: downTokenId :: _ =>
        let (midsRes, midCalls) := clobMidpoints env [upTokenId, downTokenId]
        match midsRes with
        | .error e =>
          let (res, calls) := slugLoop env numConv parse interval windowStart rest tried' e
          (res, .eventCall slug :: (midCalls ++ calls))
        | .ok mids =>
          ({ found := true, title := some (pickTitle ev), slug := some slug,
             windowStart := some ts,
             upTokenId := some upTokenId, downTokenId := some downTokenId,
             upMid := Journal.midOf numConv mids upTokenId,
             downMid := Journal.midOf numConv mids downTokenId,
             triedSlugs := tried', lastError := some "" },
           .eventCall slug :: midCalls)
      | _ =>
        let (res, calls) := slugLoop env numConv parse interval windowStart rest tried'
          ("No clobTokenIds in event slug=" ++ slug)
        (res, .eventCall slug :: calls)

/-- `resolveUpDownViaSlug` of part_004 (lines 109-181), with the trace of
network calls issued. -/
def resolveUpDownViaSlug (env : Env) (numConv : NumberConv)
    (parse : JsonParse) (asset interval : String) : SlugResult × List NetCall :=
  match INTERVAL_SECONDS interval with
  | none =>
    ({ found := false, triedSlugs := [],
       lastError := some ("Unsupported interval: " ++ interval) }, [])
  | some seconds =>
    let variants := aliasesFor asset
    let windowStart : ℤ := floorToWindowStart env.nowSec seconds
    let pairs := (candidateStarts windowStart seconds).flatMap
      fun ts => variants.map fun name => (ts, name)
    let (res, calls) := slugLoop env numConv parse interval windowStart pairs [] ""
    (res, .timeCall :: calls)

end Part004

/-! ### Time endpoint handling -/

namespace Journal

/-- `clobServerTimeSec` of journal.js (lines 152-159), applied to the
`Number(String(text).trim())` conversion of the `/time` body: throws on a
non-finite value and otherwise returns the value unchanged (no
seconds/milliseconds normalisation). -/
def clobServerTimeSec (n : JNum) : Except String ℚ :=
  match n with
  | .val q => .ok q
  | _ => .error "CLOB /time returned non-number"

end Journal

namespace Part003

/-- The interval map of part_003/part_001 (includes `60m`), applied to the
lower-cased label. -/
def INTERVAL_MAP (i : String) : Option ℕ :=
  if i = "5m" then some 300
  else if i = "15m" then some 900
  else if i = "60m" then some 3600
  else none

/-- `intervalToSeconds` of part_003 (lines 60-65; part_001 lines 50-55 is
identical): throws on an unsupported interval, before any network call. -/
def intervalToSeconds (intervalStr : String) : Except String ℕ :=
  match INTERVAL_MAP (jsToLower intervalStr) with
  | some sec => .ok sec
  | none => .error ("Unsupported interval: " ++ intervalStr)

/-- `getClobServerTimeSec` of part_003 (lines 53-58), applied to the
`Number(text)` conversion of the `/time` body: the finite value is returned
unchanged (no floor, no seconds/milliseconds normalisation). -/
def getClobServerTimeSec (n : JNum) : Except String ℚ :=
  match n with
  | .val q => .ok q
  | _ => .error "Invalid /time response"

/-- The per-token price extraction of `resolveLiveUpDown` (part_003 lines
145-155): `Number(prices?.[tokenId])`, kept exactly when finite — an
out-of-range finite value passes through unchanged. -/
def priceOf (numConv : NumberConv) (prices : String → Option JVal)
    (tokenId : String) : Option ℚ :=
  let n := match prices tokenId with
    | some v => numConv v
    | none => JNum.nan
  n.finiteOrNull

end Part003

namespace Part001

/-- `getClobServerTimeSec` of part_001 (lines 57-62), applied to the
`Number(raw)` conversion of the `/time` body: magnitudes above `1e12` are
treated as milliseconds and divided by 1000, everything else is taken as
seconds; both flooring to an integer. -/
def getClobServerTimeSec (n : JNum) : Except String ℤ :=
  match n with
  | .val q => .ok (if q > 1000000000000 then ⌊q / 1000⌋ else ⌊q⌋)
  | _ => .error "Invalid /time response"

/-- One CLOB price-service request: the token ids passed to the call. -/
inductive PriceCall where
  | prices : List String → PriceCall

/-- The token ids of a price call. -/
def PriceCall.ids : PriceCall → List String
  | .prices l => l

/-- The token snapshot extracted by `extractUpDownTokens` (part_001 lines
139-161): two token ids and the `Number(...)` conversions of the snapshot
prices found on the market record. -/
structure TokenInfo where
  upTokenId : String
  downTokenId : String
  upPrice : JNum
  downPrice : JNum

/-- The price-fetch step of `resolveLiveUpDown` (part_001 lines 210-221):
the snapshot prices are kept when finite, then a single batch
`getClobPrices([up, down])` call is made inside `try`; each batch value
overrides the snapshot only when finite, and the `catch` keeps the
snapshot.  Returns the two prices and the trace of price-service calls —
there is no per-token fallback call anywhere. -/
def priceStep (numConv : NumberConv) (info : TokenInfo)
    (batch : Except String (String → Option JVal)) :
    (Option ℚ × Option ℚ) × List PriceCall :=
  let upPrice0 := info.upPrice.finiteOrNull
  let downPrice0 := info.downPrice.finiteOrNull
  let call := PriceCall.prices [info.upTokenId, info.downTokenId]
  match batch with
  | .error _ => ((upPrice0, downPrice0), [call])
  | .ok prices =>
    let up := match prices info.upTokenId with
      | some v => numConv v
      | none => JNum.nan
    let down := match prices info.downTokenId with
      | some v => numConv v
      | none => JNum.nan
    ((match up with | .val q => some q | _ => upPrice0,
      match down with | .val q => some q | _ => downPrice0), [call])

end Part001

namespace Part004

/-- A field lookup on a JSON object (JavaScript property access). -/
def lookupField (fields : List (String × JVal)) (k : String) : Option JVal :=
  (fields.find? fun p => p.1 = k).map Prod.snd

/-- `clobTimeSeconds` of part_004 (lines 64-73), applied to the parsed JSON
payload of `GET /time`; `strNum` embeds the builtin `Number(string)`
conversion and `localNowMs` is `Date.now()`.  A number payload is floored;
a string payload becomes `Math.floor(Number(s))` — NaN when the string is
not numeric; an object payload with a numeric `timestamp` or `time` field
is floored; every other shape falls back to the floored local clock. -/
def clobTimeSeconds (strNum : String → JNum) (localNowMs : ℚ) (data : JVal) : JNum :=
  match data with
  | .num q => JNum.floor (.val q)
  | .str s => JNum.floor (strNum s)
  | .obj fields =>
    match lookupField fields "timestamp" with
    | some (JVal.num q) => JNum.floor (.val q)
    | _ =>
      match lookupField fields "time" with
      | some (JVal.num q) => JNum.floor (.val q)
      | _ => .val ⌊localNowMs / 1000⌋
  | _ => .val ⌊localNowMs / 1000⌋

end Part004

/-! ### The fuzzy-search scorer and candidate selection -/

namespace Poly

/-- `normalize` of polymarket.js / part_000: lower-casing. -/
def normalize (s : String) : String := jsToLower s

/-- JavaScript `String.prototype.includes`: contiguous substring test. -/
def jsIncludes (hay needle : String) : Bool := decide (needle.data <:+: hay.data)

/-- A validated search candidate (title plus optional slug). -/
structure Candidate where
  title : String
  slug : Option String := none

/-- The interval phrase variants of `resolveUpDownViaGammaSearch`
(polymarket.js line 734). -/
def wantPhrases (interval : String) : List String :=
  if interval = "5m" then ["5m", "5 min", "5 minutes"]
  else ["15m", "15 min", "15 minutes"]

/-- The candidate score of `resolveUpDownViaGammaSearch` (polymarket.js
lines 736-743): over the lower-cased title+slug blob, +5 for each alias
present, +3 once when a combined up/down form is present, and +2 for each
interval phrase variant present (the loop adds 2 per variant, so variants
that are substrings of one another stack). -/
def gammaScore (aliases want : List String) (c : Candidate) : ℕ :=
  let b := normalize (c.title ++ " " ++ c.slug.getD "")
  let s := aliases.foldl (fun s a => if jsIncludes b (normalize a) then s + 5 else s) 0
  let s := if jsIncludes b "up/down" || jsIncludes b "up or down" then s + 3 else s
  want.foldl (fun s w => if jsIncludes b (normalize w) then s + 2 else s) s

/-- A candidate paired with its computed score. -/
structure Scored where
  cand : Candidate
  score : ℕ

/-- Stable descending insertion.  JavaScript's `Array.prototype.sort` is
stable (ES2019), so sorting by `(a, b) => b.score - a.score` produces the
unique stable descending permutation, which insertion sort computes. -/
def insertDesc (x : Scored) : List Scored → List Scored
  | [] => [x]
  | y :: ys => if y.score ≤ x.score then x :: y :: ys else y :: insertDesc x ys

/-- `candidates.sort((a, b) => b.score - a.score)`. -/
def sortDesc (l : List Scored) : List Scored := l.foldr insertDesc []

/-- The maximal score in a list (0 when empty). -/
def topScore (l : List Scored) : ℕ := (l.map Scored.score).foldr max 0

/-- `scored[0]`: the selected candidate of the fuzzy strategy. -/
def pickBest (l : List Scored) : Option Scored := (sortDesc l).head?

/-- `assetAliases` of part_000 (lines 78-85) and polymarket.js. -/
def assetAliases (asset : String) : List String :=
  let a := jsToLower asset
  if a = "btc" then ["btc", "bitcoin"]
  else if a = "eth" then ["eth", "ethereum"]
  else if a = "sol" then ["sol", "solana"]
  else if a = "xrp" then ["xrp", "ripple"]
  else [a]

/-- `intervalAliases` of part_000 (lines 87-93). -/
def intervalAliases (interval : String) : List String :=
  let i := jsToLower interval
  if i = "5m" then ["5m", "5 min", "5 mins", "5 minutes", "in 5 minutes"]
  else if i = "15m" then
    ["15m", "15 min", "15 mins", "15 minutes", "in 15 minutes", "quarter hour"]
  else if i = "60m" then
    ["60m", "60 min", "60 mins", "60 minutes", "1 hour", "in 1 hour", "1h",
      "hour", "hourly", "next hour"]
  else [i]

/-- `scoreMarketTitle` of part_000 (lines 103-119): +6 per asset alias
present, +4 for any bare or combined up/down marker, +3 per interval alias
present, +2 when higher/lower is present. -/
def scoreMarketTitle (title asset interval : String) : ℕ :=
  let t := normalize title
  let s := (assetAliases asset).foldl
    (fun s a => if jsIncludes t a then s + 6 else s) 0
  let s := if jsIncludes t "up" || jsIncludes t "down" || jsIncludes t "up/down"
      || jsIncludes t "up or down" then s + 4 else s
  let s := (intervalAliases interval).foldl
    (fun s x => if jsIncludes t (normalize x) then s + 3 else s) s
  if jsIncludes t "higher" || jsIncludes t "lower" then s + 2 else s

end Poly

/-- The threading of a `lastError` local of type `string | null` through a
loop in which every iteration overwrites it. -/
def lastErrD (le : Option String) : List String → Option String
  | [] => le
  | m :: rest => lastErrD (some m) rest

/-- The same threading for a `lastError` local of type `string`. -/
def lastStrD (le : String) : List String → String
  | [] => le
  | m :: rest => lastStrD m rest

/-- A sample of the builtin `Number` conversion, used to instantiate the
abstract `NumberConv` parameter in concrete witnesses: it agrees with the
builtin on the JSON shapes the witnesses exercise (numbers, null,
booleans); other shapes are mapped to NaN. -/
def numberSample : NumberConv
  | .num q => .val q
  | .null => .val 0
  | .boolean b => .val (if b then 1 else 0)
  | _ => .nan

namespace Poly

/-- The scoring formula exactly as claim C4 states it (+5 per asset alias
present, +3 for a directional marker, +2 for the presence of an
interval-specific phrase variant), kept for comparison against the
source's `gammaScore`. -/
def claimScoreC4 (aliases want : List String) (c : Candidate) : ℕ :=
  let b := normalize (c.title ++ " " ++ c.slug.getD "")
  5 * aliases.countP (fun a => jsIncludes b (normalize a))
    + (if jsIncludes b "up/down" || jsIncludes b "up or down" then 3 else 0)
    + (if want.any (fun w => jsIncludes b (normalize w)) then 2 else 0)

end Poly

/-! ### Theorems: decimal rendering and slugs -/

theorem ofDigitsLE_natDecDigitsF (f n : ℕ) (h : n < f) :
    ofDigitsLE (natDecDigitsF f n) = n := by
  induction f generalizing n with
  | zero => omega
  | succ f ih =>
    rw [natDecDigitsF]
    by_cases h10 : n < 10
    · simp [h10, ofDigitsLE]
    · have hrec : n / 10 < f := by
        have h1 : n / 10 < n := Nat.div_lt_self (by omega) (by omega)
        omega
      simp only [h10, if_false, ofDigitsLE, ih (n / 10) hrec]
      omega

theorem ofDigitsLE_natDecDigits (n : ℕ) : ofDigitsLE (natDecDigits n) = n :=
  ofDigitsLE_natDecDigitsF (n + 1) n (by omega)

theorem natDecDigits_injective : Function.Injective natDecDigits := by
  intro m n h
  have := congrArg ofDigitsLE h
  rwa [ofDigitsLE_natDecDigits, ofDigitsLE_natDecDigits] at this

theorem natDecDigitsF_lt_ten (f n : ℕ) : ∀ d ∈ natDecDigitsF f n, d < 10 := by
  induction f generalizing n with
  | zero => intro d hd; simp [natDecDigitsF] at hd
  | succ f ih =>
    intro d hd
    rw [natDecDigitsF] at hd
    by_cases h10 : n < 10
    · simp [h10] at hd; omega
    · simp only [h10, if_false, List.mem_cons] at hd
      rcases hd with rfl | hd
      · omega
      · exact ih (n / 10) d hd

theorem natDecDigits_lt_ten (n : ℕ) : ∀ d ∈ natDecDigits n, d < 10 :=
  natDecDigitsF_lt_ten (n + 1) n

theorem natDecDigitsF_ne_nil (f n : ℕ) (h : n < f) : natDecDigitsF f n ≠ [] := by
  cases f with
  | zero => omega
  | succ f =>
    rw [natDecDigitsF]
    by_cases h10 : n < 10 <;> simp [h10]

theorem natDecDigits_ne_nil (n : ℕ) : natDecDigits n ≠ [] :=
  natDecDigitsF_ne_nil (n + 1) n (by omega)

theorem decDigitChar_inj_lt :
    ∀ d, d < 10 → ∀ e, e < 10 → decDigitChar d = decDigitChar e → d = e := by
  decide

theorem decDigitChar_ne_dash : ∀ d, d < 10 → decDigitChar d ≠ '-' := by
  decide

theorem map_decDigitChar_inj :
    ∀ (l₁ l₂ : List ℕ), (∀ d ∈ l₁, d < 10) → (∀ d ∈ l₂, d < 10) →
      l₁.map decDigitChar = l₂.map decDigitChar → l₁ = l₂ := by
  intro l₁
  induction l₁ with
  | nil => intro l₂ _ _ h; cases l₂ <;> simp_all
  | cons d l ih =>
    intro l₂ h₁ h₂ h
    cases l₂ with
    | nil => simp_all
    | cons e l' =>
      simp only [List.map_cons, List.cons.injEq] at h
      have hde : d = e :=
        decDigitChar_inj_lt d (h₁ d (by simp)) e (h₂ e (by simp)) h.1
      have := ih l' (fun x hx => h₁ x (by simp [hx])) (fun x hx => h₂ x (by simp [hx])) h.2
      simp [hde, this]

theorem natDecRepr_injective : Function.Injective natDecRepr := by
  intro m n h
  have hdata : ((natDecDigits m).reverse.map decDigitChar)
      = ((natDecDigits n).reverse.map decDigitChar) := by
    have := congrArg String.data h
    simpa [natDecRepr, List.asString] using this
  have hrev := map_decDigitChar_inj _ _
    (fun d hd => natDecDigits_lt_ten m d (List.mem_reverse.mp hd))
    (fun d hd => natDecDigits_lt_ten n d (List.mem_reverse.mp hd)) hdata
  exact natDecDigits_injective (List.reverse_injective hrev)

theorem natDecRepr_head_digit (n : ℕ) :
    ∃ d rest, d < 10 ∧ (natDecRepr n).data = decDigitChar d :: rest := by
  have hne : (natDecDigits n).reverse ≠ [] := by
    simp [natDecDigits_ne_nil n]
  obtain ⟨d, l, hl⟩ := List.exists_cons_of_ne_nil hne
  refine ⟨d, l.map decDigitChar, ?_, ?_⟩
  · exact natDecDigits_lt_ten n d (List.mem_reverse.mp (hl ▸ List.mem_cons_self d l))
  · simp [natDecRepr, List.asString, hl]

theorem intDecRepr_injective : Function.Injective intDecRepr := by
  intro i j h
  unfold intDecRepr at h
  by_cases hi : i < 0 <;> by_cases hj : j < 0
  · simp only [hi, hj, if_true] at h
    have hdata : ('-' :: (natDecRepr i.natAbs).data)
        = ('-' :: (natDecRepr j.natAbs).data) := congrArg String.data h
    have : natDecRepr i.natAbs = natDecRepr j.natAbs := by
      apply String.ext
      simpa using hdata
    have := natDecRepr_injective this
    omega
  · exfalso
    simp only [hi, hj, if_true, if_false] at h
    obtain ⟨d, rest, hd, hrepr⟩ := natDecRepr_head_digit j.natAbs
    have hdata : ('-' :: (natDecRepr i.natAbs).data)
        = (natDecRepr j.natAbs).data := congrArg String.data h
    rw [hrepr] at hdata
    simp only [List.cons.injEq] at hdata
    exact decDigitChar_ne_dash d hd hdata.1.symm
  · exfalso
    simp only [hi, hj, if_true, if_false] at h
    obtain ⟨d, rest, hd, hrepr⟩ := natDecRepr_head_digit i.natAbs
    have hdata : (natDecRepr i.natAbs).data
        = ('-' :: (natDecRepr j.natAbs).data) := congrArg String.data h
    rw [hrepr] at hdata
    simp only [List.cons.injEq] at hdata
    exact decDigitChar_ne_dash d hd hdata.1
  · simp only [hi, hj, if_false] at h
    have := natDecRepr_injective h
    omega

theorem list_dash_split :
    ∀ (l₁ : List Char) (r₁ : List Char) (l₂ : List Char) (r₂ : List Char),
      '-' ∉ l₁ → '-' ∉ l₂ →
      l₁ ++ '-' :: r₁ = l₂ ++ '-' :: r₂ → l₁ = l₂ ∧ r₁ = r₂ := by
  intro l₁
  induction l₁ with
  | nil =>
    intro r₁ l₂ r₂ _ h₂ h
    cases l₂ with
    | nil => simpa using h
    | cons c l₂' =>
      exfalso
      simp only [List.nil_append, List.cons_append, List.cons.injEq] at h
      exact h₂ (h.1 ▸ List.mem_cons_self c l₂')
  | cons c l₁' ih =>
    intro r₁ l₂ r₂ h₁ h₂ h
    cases l₂ with
    | nil =>
      exfalso
      simp only [List.cons_append, List.nil_append, List.cons.injEq] at h
      exact h₁ (h.1 ▸ List.mem_cons_self c l₁')
    | cons c' l₂' =>
      simp only [List.cons_append, List.cons.injEq] at h
      have hmem₁ : '-' ∉ l₁' := fun hm => h₁ (List.mem_cons_of_mem c hm)
      have hmem₂ : '-' ∉ l₂' := fun hm => h₂ (List.mem_cons_of_mem c' hm)
      obtain ⟨hl, hr⟩ := ih r₁ l₂' r₂ hmem₁ hmem₂ h.2
      exact ⟨by simp [h.1, hl], hr⟩

theorem mkSlug_data (a interval : String) (ts : ℤ) :
    (mkSlug a interval ts).data
      = a.data ++ '-' :: ("updown-".data ++ interval.data
          ++ '-' :: (intDecRepr ts).data) := by
  simp [mkSlug, String.data_append]

theorem mkSlug_inj {a₁ a₂ interval : String} {t₁ t₂ : ℤ}
    (h₁ : noDash a₁) (h₂ : noDash a₂)
    (h : mkSlug a₁ interval t₁ = mkSlug a₂ interval t₂) :
    a₁ = a₂ ∧ t₁ = t₂ := by
  have hdata := congrArg String.data h
  rw [mkSlug_data, mkSlug_data] at hdata
  obtain ⟨ha, hrest⟩ := list_dash_split _ _ _ _ h₁ h₂ hdata
  have hrest' := List.append_cancel_left hrest
  simp only [List.cons.injEq, true_and] at hrest'
  refine ⟨String.ext ha, intDecRepr_injective (String.ext hrest')⟩

theorem genSlugCandidates_length (aliases : List String) (interval : String)
    (starts : List ℤ) :
    (genSlugCandidates aliases interval starts).length
      = aliases.length * starts.length := by
  induction starts with
  | nil => simp [genSlugCandidates]
  | cons ts rest ih =>
    simp only [genSlugCandidates, List.flatMap_cons, List.length_append,
      List.length_map, List.length_cons] at *
    rw [ih]
    ring

theorem genSlugCandidates_get (aliases : List String) (interval : String)
    (starts : List ℤ) (j i : ℕ) (hj : j < starts.length)
    (hi : i < aliases.length) :
    (genSlugCandidates aliases interval starts)[j * aliases.length + i]?
      = some (mkSlug (aliases.get ⟨i, hi⟩) interval (starts.get ⟨j, hj⟩)) := by
  induction starts generalizing j with
  | nil => simp at hj
  | cons ts rest ih =>
    cases j with
    | zero =>
      simp only [genSlugCandidates, List.flatMap_cons]
      rw [List.getElem?_append_left (by simpa using hi)]
      simp [List.getElem?_map, hi, List.getElem?_eq_getElem]
    | succ j =>
      have hj' : j < rest.length := by simpa using hj
      simp only [genSlugCandidates, List.flatMap_cons]
      rw [List.getElem?_append_right (by simp; nlinarith)]
      have harith : (j + 1) * aliases.length + i - (List.map
          (fun a => mkSlug a interval ts) aliases).length
          = j * aliases.length + i := by
        simp only [List.length_map]; ring_nf; omega
      rw [harith]
      simpa [genSlugCandidates] using ih j hj'

theorem genSlugCandidates_nodup (aliases : List String) (interval : String)
    (starts : List ℤ) (hno : ∀ a ∈ aliases, noDash a)
    (ha : aliases.Nodup) (hs : starts.Nodup) :
    (genSlugCandidates aliases interval starts).Nodup := by
  induction starts with
  | nil => simp [genSlugCandidates]
  | cons ts rest ih =>
    simp only [genSlugCandidates, List.flatMap_cons]
    have hs1 : ts ∉ rest := (List.nodup_cons.mp hs).1
    have hs2 : rest.Nodup := (List.nodup_cons.mp hs).2
    refine List.Nodup.append ?_ (ih hs2) ?_
    · refine List.Nodup.map_on ?_ ha
      intro a₁ hmem₁ a₂ hmem₂ heq
      exact (mkSlug_inj (hno a₁ hmem₁) (hno a₂ hmem₂) heq).1
    · intro s hmem₁ hmem₂
      simp only [List.mem_map] at hmem₁
      obtain ⟨a₁, ha₁, rfl⟩ := hmem₁
      simp only [genSlugCandidates, List.mem_flatMap, List.mem_map] at hmem₂
      obtain ⟨ts', hts', a₂, ha₂, heq⟩ := hmem₂
      have := (mkSlug_inj (hno a₂ ha₂) (hno a₁ ha₁) heq).2
      exact hs1 (this ▸ hts')

/-! ### Helper lemmas -/

theorem foldl_add_if {α : Type} (p : α → Bool) (k : ℕ) :
    ∀ (l : List α) (init : ℕ),
      l.foldl (fun s a => if p a then s + k else s) init
        = init + k * l.countP p := by
  intro l
  induction l with
  | nil => intro init; simp
  | cons x xs ih =>
    intro init
    simp only [List.foldl_cons, List.countP_cons]
    cases hx : p x
    · simpa [hx] using ih init
    · simp [hx, ih]
      ring

theorem INTERVAL_SECONDS_cases {interval : String} {d : ℕ}
    (h : INTERVAL_SECONDS interval = some d) : d = 300 ∨ d = 900 := by
  unfold INTERVAL_SECONDS at h
  split_ifs at h <;> simp_all

theorem INTERVAL_SECONDS_pos {interval : String} {d : ℕ}
    (h : INTERVAL_SECONDS interval = some d) : 0 < d := by
  rcases INTERVAL_SECONDS_cases h with rfl | rfl <;> norm_num

theorem aliasesFor_length_le (asset : String) : (aliasesFor asset).length ≤ 2 := by
  unfold aliasesFor ASSET_ALIASES
  split_ifs <;> simp

theorem aliasesFor_ne_nil (asset : String) : aliasesFor asset ≠ [] := by
  unfold aliasesFor ASSET_ALIASES
  split_ifs <;> simp

theorem aliasesFor_props (asset : String)
    (ha : asset ∈ ["btc", "eth", "sol", "xrp"]) :
    (∀ a ∈ aliasesFor asset, noDash a) ∧ (aliasesFor asset).Nodup := by
  fin_cases ha <;> exact ⟨by decide, by decide⟩

theorem candidateStarts_nodup (w : ℤ) (d : ℕ) (hd : 0 < d) :
    (candidateStarts w d).Nodup := by
  have h1 : w ≠ w - (d : ℤ) := by omega
  have h2 : w ≠ w + (d : ℤ) := by omega
  have h3 : w - (d : ℤ) ≠ w + (d : ℤ) := by omega
  simp [candidateStarts, List.nodup_cons, h1, h2, h3]

theorem lastErrD_eq (l : List String) (le : Option String) :
    lastErrD le l = l.getLast?.or le := by
  induction l generalizing le with
  | nil => simp [lastErrD]
  | cons m rest ih =>
    rw [lastErrD, ih]
    cases rest with
    | nil => rfl
    | cons b bs =>
      rw [List.getLast?_cons_cons]
      rcases h : (b :: bs).getLast? with _ | x
      · exact absurd (List.getLast?_eq_none_iff.mp h) (by simp)
      · rfl

theorem lastStrD_eq (l : List String) (le : String) :
    lastStrD le l = l.getLast?.getD le := by
  induction l generalizing le with
  | nil => simp [lastStrD]
  | cons m rest ih =>
    rw [lastStrD, ih]
    cases rest with
    | nil => rfl
    | cons b bs =>
      rw [List.getLast?_cons_cons]
      rcases h : (b :: bs).getLast? with _ | x
      · exact absurd (List.getLast?_eq_none_iff.mp h) (by simp)
      · rfl

theorem pairs_map_slug (aliases : List String) (interval : String)
    (starts : List ℤ) :
    ((starts.flatMap fun ts => aliases.map fun a => (ts, a)).map
        fun p => mkSlug p.2 interval p.1)
      = genSlugCandidates aliases interval starts := by
  induction starts with
  | nil => rfl
  | cons ts rest ih =>
    simp only [genSlugCandidates, List.flatMap_cons, List.map_append] at *
    rw [ih]
    simp [List.map_map, Function.comp]

theorem Journal.slugLoop_exhausts (env : GammaClobEnv) (numConv : NumberConv)
    (parse : JsonParse) (interval : String) (f : String → String)
    (hfail : ∀ s, env.eventBySlug s = .error (f s)) :
    ∀ (pairs : List (ℤ × String)) (tried : List String) (le : Option String),
      Journal.slugLoop env numConv parse interval pairs tried le
        = ({ found := false,
             triedSlugs := (tried ++ pairs.map fun p => mkSlug p.2 interval p.1).take 10,
             lastError := lastErrD le (pairs.map fun p => f (mkSlug p.2 interval p.1)) },
           pairs.map fun p => NetCall.eventCall (mkSlug p.2 interval p.1)) := by
  intro pairs
  induction pairs with
  | nil => intro tried le; simp [Journal.slugLoop, lastErrD]
  | cons p rest ih =>
    intro tried le
    obtain ⟨ts, a⟩ := p
    simp only [Journal.slugLoop, hfail, ih, lastErrD, List.map_cons]
    simp [List.append_assoc]

theorem Part004.slugLoop_exhausts_rev (env : Part004.Env) (numConv : NumberConv)
    (parse : JsonParse) (interval : String) (w : ℤ) (g : String → String)
    (hfail : ∀ s, env.eventBySlug s = .error (g s)) :
    ∀ (pairs : List (ℤ × String)) (tried : List String) (le : String),
      Part004.slugLoop env numConv parse interval w pairs tried le
        = ({ found := false, windowStart := some w,
             triedSlugs := (pairs.map fun p => mkSlug p.2 interval p.1).reverse ++ tried,
             lastError :=
               some (if lastStrD le (pairs.map fun p => g (mkSlug p.2 interval p.1)) = ""
                 then "Unknown failure"
                 else lastStrD le (pairs.map fun p => g (mkSlug p.2 interval p.1))) },
           pairs.map fun p => NetCall.eventCall (mkSlug p.2 interval p.1)) := by
  intro pairs
  induction pairs with
  | nil => intro tried le; simp [Part004.slugLoop, lastStrD]
  | cons p rest ih =>
    intro tried le
    obtain ⟨ts, a⟩ := p
    simp only [Part004.slugLoop, hfail, ih, lastStrD, List.map_cons]
    simp [List.reverse_cons, List.append_assoc]

namespace Poly

theorem head?_insertDesc (x : Scored) (s : List Scored) :
    (insertDesc x s).head? = some (match s.head? with
      | none => x
      | some y => if y.score ≤ x.score then x else y) := by
  cases s with
  | nil => rfl
  | cons y ys =>
    by_cases h : y.score ≤ x.score <;> simp [insertDesc, h]

theorem topScore_cons (x : Scored) (xs : List Scored) :
    topScore (x :: xs) = max x.score (topScore xs) := by
  simp [topScore]

theorem exists_top_attained (l : List Scored) (hne : l ≠ []) :
    ∃ y ∈ l, y.score = topScore l := by
  induction l with
  | nil => simp at hne
  | cons x xs ih =>
    rcases eq_or_ne xs [] with rfl | hxs
    · refine ⟨x, by simp, ?_⟩
      simp only [topScore, List.map_cons, List.map_nil, List.foldr_cons, List.foldr_nil]
      omega
    · obtain ⟨y, hy, hty⟩ := ih hxs
      by_cases h : topScore xs ≤ x.score
      · refine ⟨x, by simp, ?_⟩
        rw [topScore_cons]; omega
      · refine ⟨y, by simp [hy], ?_⟩
        rw [topScore_cons]; omega

theorem insertDesc_perm (x : Scored) (s : List Scored) :
    (insertDesc x s).Perm (x :: s) := by
  induction s with
  | nil => rfl
  | cons y ys ih =>
    by_cases h : y.score ≤ x.score
    · simp [insertDesc, h]
    · simp only [insertDesc, h, if_false]
      exact (List.Perm.cons y ih).trans (List.Perm.swap x y ys)

theorem sortDesc_perm (l : List Scored) : (sortDesc l).Perm l := by
  induction l with
  | nil => rfl
  | cons x xs ih =>
    exact ((insertDesc_perm x (sortDesc xs)).trans (List.Perm.cons x ih))

theorem insertDesc_sorted (x : Scored) (s : List Scored)
    (hs : s.Pairwise fun a b => b.score ≤ a.score) :
    (insertDesc x s).Pairwise fun a b => b.score ≤ a.score := by
  induction s with
  | nil => simp [insertDesc]
  | cons y ys ih =>
    rcases List.pairwise_cons.mp hs with ⟨hy, hys⟩
    by_cases h : y.score ≤ x.score
    · simp only [insertDesc, h, if_true]
      refine List.pairwise_cons.mpr ⟨?_, hs⟩
      intro z hz
      rcases List.mem_cons.mp hz with rfl | hz
      · exact h
      · exact le_trans (hy z hz) h
    · simp only [insertDesc, h, if_false]
      refine List.pairwise_cons.mpr ⟨?_, ih hys⟩
      intro z hz
      rcases List.mem_cons.mp ((insertDesc_perm x ys).mem_iff.mp hz) with rfl | hz2
      · omega
      · exact hy z hz2

/-- `sortDesc` is a descending sorted permutation of its input: together
with stability (captured by `pickBest_eq_first_max` below) this pins the
embedding to the unique output of JavaScript's stable sort under the
comparator `(a, b) => b.score - a.score`. -/
theorem sortDesc_sorted (l : List Scored) :
    (sortDesc l).Pairwise fun a b => b.score ≤ a.score := by
  induction l with
  | nil => simp [sortDesc]
  | cons x xs ih => exact insertDesc_sorted x (sortDesc xs) ih

theorem pickBest_eq_first_max (l : List Scored) :
    pickBest l = l.find? fun x => x.score = topScore l := by
  induction l with
  | nil => rfl
  | cons x xs ih =>
    show (insertDesc x (sortDesc xs)).head? = _
    rw [head?_insertDesc]
    have hsort : (sortDesc xs).head? = xs.find? fun c => c.score = topScore xs := ih
    rcases eq_or_ne xs [] with rfl | hxs
    · simp only [sortDesc, List.foldr_nil, List.head?_nil]
      rw [List.find?_cons]
      have : decide (x.score = topScore [x]) = true := by
        simp [topScore_cons, topScore]
      rw [this]
    · obtain ⟨y0, hy0mem, hy0top⟩ := exists_top_attained xs hxs
      have hfind : xs.find? (fun c => c.score = topScore xs) ≠ none := by
        intro hnone
        rw [List.find?_eq_none] at hnone
        exact hnone y0 hy0mem (by simp [hy0top])
      rcases hfound : xs.find? (fun c => c.score = topScore xs) with _ | y
      · exact absurd hfound hfind
      · have hytop : y.score = topScore xs := by
          have := List.find?_some hfound
          simpa using this
        rw [hsort, hfound]
        by_cases hle : topScore xs ≤ x.score
        · have htop : topScore (x :: xs) = x.score := by
            rw [topScore_cons]; omega
          have hyx : y.score ≤ x.score := by omega
          simp [List.find?_cons, htop, hyx]
        · have htop : topScore (x :: xs) = topScore xs := by
            rw [topScore_cons]; omega
          have hne : ¬ (x.score = topScore (x :: xs)) := by omega
          have hne2 : ¬ (x.score = topScore xs) := by omega
          have hyx : ¬ (y.score ≤ x.score) := by omega
          simp [List.find?_cons, hne, hne2, hyx, htop, hfound]

end Poly

/-! ### The claims -/

/-- C1: for every supported asset and interval, the deterministic-slug
candidate generator walks the window starts in the priority order current
window, previous window (`windowStart - d`), next window
(`windowStart + d`), with an outer loop over window starts and an inner
loop over aliases (primary alias first: entry `j * aliasCount + i` is the
`i`-th alias at the `j`-th window start); the flat list has
`aliasCount × windowOffsetCount` entries and no duplicate slugs. -/
theorem C1_deterministic_candidates (asset interval : String) (now d : ℕ)
    (ha : asset ∈ ["btc", "eth", "sol", "xrp"])
    (hd : INTERVAL_SECONDS interval = some d) :
    candidateStarts (floorToWindowStart now d) d
        = [(floorToWindowStart now d : ℤ),
           (floorToWindowStart now d : ℤ) - d,
           (floorToWindowStart now d : ℤ) + d]
    ∧ (genSlugCandidates (aliasesFor asset) interval
          (candidateStarts (floorToWindowStart now d) d)).length
        = (aliasesFor asset).length * 3
    ∧ (genSlugCandidates (aliasesFor asset) interval
          (candidateStarts (floorToWindowStart now d) d)).Nodup
    ∧ ∀ (j i : ℕ) (hj : j < (candidateStarts (floorToWindowStart now d) d).length)
        (hi : i < (aliasesFor asset).length),
        (genSlugCandidates (aliasesFor asset) interval
            (candidateStarts (floorToWindowStart now d) d))[j * (aliasesFor asset).length + i]?
          = some (mkSlug ((aliasesFor asset).get ⟨i, hi⟩) interval
              ((candidateStarts (floorToWindowStart now d) d).get ⟨j, hj⟩)) := by
  have hpos : 0 < d := INTERVAL_SECONDS_pos hd
  obtain ⟨hnod, hnodup⟩ := aliasesFor_props asset ha
  refine ⟨rfl, ?_, ?_, ?_⟩
  · rw [genSlugCandidates_length]; rfl
  · exact genSlugCandidates_nodup _ _ _ hnod hnodup (candidateStarts_nodup _ _ hpos)
  · intro j i hj hi
    exact genSlugCandidates_get _ _ _ j i hj hi

/-- Witness for C1: asset btc, interval 5m, now 1700000300 (the spec's own
scenario: window start 1700000100). -/
theorem C1_deterministic_candidates_witness :
    ("btc" ∈ ["btc", "eth", "sol", "xrp"]
      ∧ INTERVAL_SECONDS "5m" = some 300
      ∧ floorToWindowStart 1700000300 300 = 1700000100)
    ∧ ((genSlugCandidates (aliasesFor "btc") "5m"
          (candidateStarts (floorToWindowStart 1700000300 300) 300)).length
        = (aliasesFor "btc").length * 3
      ∧ (genSlugCandidates (aliasesFor "btc") "5m"
          (candidateStarts (floorToWindowStart 1700000300 300) 300)).Nodup) :=
  ⟨⟨by decide, by decide, by decide⟩,
    (C1_deterministic_candidates "btc" "5m" 1700000300 300 (by decide) (by decide)).2.1,
    (C1_deterministic_candidates "btc" "5m" 1700000300 300 (by decide) (by decide)).2.2.1⟩

/-- C2: for every non-negative `now` (embedded as a natural number of
seconds) and positive duration, the computed window start is
`floor(now / d) * d` and is an exact multiple of `d`. -/
theorem C2_window_start_floor (now d : ℕ) (hd : 0 < d) :
    floorToWindowStart now d = now / d * d ∧ floorToWindowStart now d % d = 0 :=
  ⟨rfl, Nat.mul_mod_left _ _⟩

/-- Witness for C2 at the spec's scenario now = 1700000300, d = 300. -/
theorem C2_window_start_floor_witness :
    (0 < 300 ∧ floorToWindowStart 1700000300 300 = 1700000100)
    ∧ (floorToWindowStart 1700000300 300 = 1700000300 / 300 * 300
      ∧ floorToWindowStart 1700000300 300 % 300 = 0) :=
  ⟨⟨by decide, by decide⟩, C2_window_start_floor 1700000300 300 (by decide)⟩

/-- C3: the token-id field is accepted both as a native array and as a
string containing a JSON-encoded array; every other shape (or a string
that does not parse to an array) parses to the empty list; and the
validator (`pickBestMarketFromEvent`, used by the candidate loop) accepts
a market exactly when the parsed list has at least 2 entries, so a record
with fewer than 2 parsed ids is skipped and resolution moves on. -/
theorem C3_token_validation (parse : JsonParse) :
    (∀ v, safeParseArray parse v = parseTokenIdsFromMarket parse { clobTokenIds := v })
    ∧ (∀ xs, parseTokenIdsFromMarket parse { clobTokenIds := .arr xs } = xs)
    ∧ (∀ s xs, parse s = some (.arr xs) →
        parseTokenIdsFromMarket parse { clobTokenIds := .str s } = xs)
    ∧ (∀ s, (∀ xs, parse s ≠ some (.arr xs)) →
        parseTokenIdsFromMarket parse { clobTokenIds := .str s } = [])
    ∧ (parseTokenIdsFromMarket parse { clobTokenIds := .null } = [])
    ∧ (∀ b, parseTokenIdsFromMarket parse { clobTokenIds := .boolean b } = [])
    ∧ (∀ q, parseTokenIdsFromMarket parse { clobTokenIds := .num q } = [])
    ∧ (∀ fields, parseTokenIdsFromMarket parse { clobTokenIds := .obj fields } = [])
    ∧ (∀ ev, pickBestMarketFromEvent parse ev = none ↔
        ∀ m ∈ ev.markets, (parseTokenIdsFromMarket parse m).length < 2)
    ∧ (∀ ev m, pickBestMarketFromEvent parse ev = some m →
        2 ≤ (parseTokenIdsFromMarket parse m).length) := by
  refine ⟨?_, ?_, ?_, ?_, rfl, fun _ => rfl, fun _ => rfl, fun _ => rfl, ?_, ?_⟩
  · intro v
    cases v <;> rfl
  · intro xs; rfl
  · intro s xs h
    simp [parseTokenIdsFromMarket, h]
  · intro s h
    rcases hp : parse s with _ | v
    · simp [parseTokenIdsFromMarket, hp]
    · cases v <;> try simp [parseTokenIdsFromMarket, hp]
      all_goals exact absurd hp (h _)
  · intro ev
    rw [pickBestMarketFromEvent, List.find?_eq_none]
    constructor
    · intro h m hm
      have := h m hm
      simpa using this
    · intro h m hm
      simp [h m hm]
  · intro ev m h
    have := List.find?_some h
    simpa using this

/-- Witness for C3 at a concrete parse function and string-encoded field. -/
theorem C3_token_validation_witness :
    parseTokenIdsFromMarket (fun _ => some (.arr [.str "a", .str "b"]))
        { clobTokenIds := .str "x" }
      = [.str "a", .str "b"] :=
  (C3_token_validation (fun _ => some (.arr [.str "a", .str "b"]))).2.2.1 "x" _ rfl

/-- Counterexample to C4 as stated: on the candidate title
"bitcoin up or down 5 minutes" (asset btc, interval 5m) the claim's
formula gives 5 + 3 + 2 = 10, but the gamma-search scorer gives 12 (the
interval-variant bonus is added once per variant present, and both
"5 min" and "5 minutes" are present), and part_000's `scoreMarketTitle`
gives 16 (its weights are +6/+4/+3/+2, not +5/+3/+2). -/
theorem C4_counterexample :
    Poly.gammaScore ["btc", "bitcoin"] (Poly.wantPhrases "5m")
        { title := "bitcoin up or down 5 minutes", slug := none } = 12
    ∧ Poly.claimScoreC4 ["btc", "bitcoin"] (Poly.wantPhrases "5m")
        { title := "bitcoin up or down 5 minutes", slug := none } = 10
    ∧ Poly.scoreMarketTitle "bitcoin up or down 5 minutes" "btc" "5m" = 16 := by
  refine ⟨by decide, by decide, by decide⟩

/-- C4 (amended): the gamma-search scorer adds +5 per asset alias present
in the lower-cased title+slug blob, +3 once when a combined directional
form ("up/down" or "up or down") is present, and +2 for EACH interval
phrase variant present (variants stack); part_000's `scoreMarketTitle`
uses the weights +6 per asset alias, +4 for any bare or combined up/down
marker, +3 per interval alias, +2 for higher/lower.  Both selectors sort
with a stable comparator on the score and take the first element, so the
selected candidate is the first one attaining the maximal score: ties are
broken by encounter order. -/
theorem C4_scorer_and_tiebreak :
    (∀ (aliases want : List String) (c : Poly.Candidate),
      Poly.gammaScore aliases want c
        = 5 * aliases.countP
              (fun a => Poly.jsIncludes
                (Poly.normalize (c.title ++ " " ++ c.slug.getD "")) (Poly.normalize a))
          + (if Poly.jsIncludes (Poly.normalize (c.title ++ " " ++ c.slug.getD "")) "up/down"
                || Poly.jsIncludes (Poly.normalize (c.title ++ " " ++ c.slug.getD ""))
                    "up or down"
              then 3 else 0)
          + 2 * want.countP
              (fun w => Poly.jsIncludes
                (Poly.normalize (c.title ++ " " ++ c.slug.getD "")) (Poly.normalize w)))
    ∧ (∀ (title asset interval : String),
      Poly.scoreMarketTitle title asset interval
        = 6 * (Poly.assetAliases asset).countP
              (fun a => Poly.jsIncludes (Poly.normalize title) a)
          + (if Poly.jsIncludes (Poly.normalize title) "up"
                || Poly.jsIncludes (Poly.normalize title) "down"
                || Poly.jsIncludes (Poly.normalize title) "up/down"
                || Poly.jsIncludes (Poly.normalize title) "up or down"
              then 4 else 0)
          + 3 * (Poly.intervalAliases interval).countP
              (fun x => Poly.jsIncludes (Poly.normalize title) (Poly.normalize x))
          + (if Poly.jsIncludes (Poly.normalize title) "higher"
                || Poly.jsIncludes (Poly.normalize title) "lower"
              then 2 else 0))
    ∧ (∀ l : List Poly.Scored,
        Poly.pickBest l = l.find? fun x => x.score = Poly.topScore l) := by
  refine ⟨?_, ?_, Poly.pickBest_eq_first_max⟩
  · intro aliases want c
    simp only [Poly.gammaScore, foldl_add_if, Nat.zero_add]
    cases hud : Poly.jsIncludes (Poly.normalize (c.title ++ " " ++ c.slug.getD "")) "up/down"
        || Poly.jsIncludes (Poly.normalize (c.title ++ " " ++ c.slug.getD "")) "up or down"
        <;> simp [hud]
  · intro title asset interval
    simp only [Poly.scoreMarketTitle, foldl_add_if, Nat.zero_add]
    cases hud : Poly.jsIncludes (Poly.normalize title) "up"
        || Poly.jsIncludes (Poly.normalize title) "down"
        || Poly.jsIncludes (Poly.normalize title) "up/down"
        || Poly.jsIncludes (Poly.normalize title) "up or down"
        <;> cases hhl : Poly.jsIncludes (Poly.normalize title) "higher"
          || Poly.jsIncludes (Poly.normalize title) "lower"
        <;> simp [hud, hhl]

/-- Counterexample to C5 as stated: with every candidate failing (a 404
for each slug), part_004's `resolveUpDownViaSlug` returns the tried slugs
NEWEST FIRST (`triedSlugs.unshift(slug)`), the reverse of the order in
which they were tried. -/
theorem C5_counterexample :
    (Part004.resolveUpDownViaSlug
        { nowSec := 1700000300,
          eventBySlug := fun s => .error ("HTTP 404 " ++ s),
          midpoints := fun _ => .error "unused" }
        numberSample (fun _ => none) "btc" "5m").1.triedSlugs
      = ["bitcoin-updown-5m-1700000400", "btc-updown-5m-1700000400",
         "bitcoin-updown-5m-1699999800", "btc-updown-5m-1699999800",
         "bitcoin-updown-5m-1700000100", "btc-updown-5m-1700000100"]
    ∧ (Part004.resolveUpDownViaSlug
        { nowSec := 1700000300,
          eventBySlug := fun s => .error ("HTTP 404 " ++ s),
          midpoints := fun _ => .error "unused" }
        numberSample (fun _ => none) "btc" "5m").1.triedSlugs
      ≠ ["btc-updown-5m-1700000100", "bitcoin-updown-5m-1700000100",
         "btc-updown-5m-1699999800", "bitcoin-updown-5m-1699999800",
         "btc-updown-5m-1700000400", "bitcoin-updown-5m-1700000400"] := by
  refine ⟨by decide, by decide⟩

/-- C5 (amended): when every candidate fails, both deterministic resolvers
return `found = false`, the tried-slug list with length equal to the
generated candidate count (`aliasCount × 3`), and the error of the last
candidate tried; journal.js lists the slugs in the order tried (its
`slice(0, 10)` never truncates, the count being at most 6), while
part_004 lists them newest first (reverse order of trying). -/
theorem C5_exhaustion_trail (envJ : GammaClobEnv) (env4 : Part004.Env)
    (numConv : NumberConv) (parse : JsonParse) (asset interval : String)
    (d : ℕ) (f g : String → String)
    (hd : INTERVAL_SECONDS interval = some d)
    (hJ : ∀ s, envJ.eventBySlug s = .error (f s))
    (h4 : ∀ s, env4.eventBySlug s = .error (g s)) :
    ((Journal.resolveUpDownBySlug envJ numConv parse asset interval).1.found = false)
    ∧ (Journal.resolveUpDownBySlug envJ numConv parse asset interval).1.triedSlugs
        = genSlugCandidates (aliasesFor asset) interval
            (candidateStarts (floorToWindowStart envJ.nowSec d) d)
    ∧ (Journal.resolveUpDownBySlug envJ numConv parse asset interval).1.triedSlugs.length
        = (aliasesFor asset).length * 3
    ∧ (Journal.resolveUpDownBySlug envJ numConv parse asset interval).1.lastError
        = (genSlugCandidates (aliasesFor asset) interval
            (candidateStarts (floorToWindowStart envJ.nowSec d) d)).getLast?.map f
    ∧ ((Part004.resolveUpDownViaSlug env4 numConv parse asset interval).1.found = false)
    ∧ (Part004.resolveUpDownViaSlug env4 numConv parse asset interval).1.triedSlugs
        = (genSlugCandidates (aliasesFor asset) interval
            (candidateStarts (floorToWindowStart env4.nowSec d) d)).reverse
    ∧ (Part004.resolveUpDownViaSlug env4 numConv parse asset interval).1.triedSlugs.length
        = (aliasesFor asset).length * 3
    ∧ (Part004.resolveUpDownViaSlug env4 numConv parse asset interval).1.lastError
        = (genSlugCandidates (aliasesFor asset) interval
            (candidateStarts (floorToWindowStart env4.nowSec d) d)).getLast?.map
            (fun s => if g s = "" then "Unknown failure" else g s) := by
  have hlenA := aliasesFor_length_le asset
  have hposA : 0 < (aliasesFor asset).length :=
    List.length_pos.mpr (aliasesFor_ne_nil asset)
  have hloopJ := Journal.slugLoop_exhausts envJ numConv parse interval f hJ
  have hloop4 := Part004.slugLoop_exhausts_rev env4 numConv parse interval
    ((floorToWindowStart env4.nowSec d : ℤ)) g h4
  have htakeJ : (genSlugCandidates (aliasesFor asset) interval
      (candidateStarts (floorToWindowStart envJ.nowSec d) d)).length ≤ 10 := by
    rw [genSlugCandidates_length]
    simp only [candidateStarts, List.length_cons, List.length_singleton, List.length_nil]
    omega
  refine ⟨?_, ?_, ?_, ?_, ?_, ?_, ?_, ?_⟩
  · simp [Journal.resolveUpDownBySlug, hd, hloopJ]
  · simp only [Journal.resolveUpDownBySlug, hd, hloopJ, List.nil_append]
    rw [pairs_map_slug]
    exact List.take_of_length_le htakeJ
  · simp only [Journal.resolveUpDownBySlug, hd, hloopJ, List.nil_append]
    rw [pairs_map_slug, List.take_of_length_le htakeJ, genSlugCandidates_length]
    simp [candidateStarts]
  · simp only [Journal.resolveUpDownBySlug, hd, hloopJ]
    rw [lastErrD_eq]
    have hmap : (((candidateStarts (floorToWindowStart envJ.nowSec d) d).flatMap
          fun ts => (aliasesFor asset).map fun a => (ts, a)).map
            fun p => f (mkSlug p.2 interval p.1))
        = (genSlugCandidates (aliasesFor asset) interval
            (candidateStarts (floorToWindowStart envJ.nowSec d) d)).map f := by
      rw [← pairs_map_slug, List.map_map]
      rfl
    rw [hmap, List.getLast?_map]
    cases (genSlugCandidates (aliasesFor asset) interval
      (candidateStarts (floorToWindowStart envJ.nowSec d) d)).getLast? <;> rfl
  · simp [Part004.resolveUpDownViaSlug, hd, hloop4]
  · simp only [Part004.resolveUpDownViaSlug, hd, hloop4, List.append_nil]
    rw [pairs_map_slug]
  · simp only [Part004.resolveUpDownViaSlug, hd, hloop4, List.append_nil]
    rw [pairs_map_slug, List.length_reverse, genSlugCandidates_length]
    simp [candidateStarts]
  · simp only [Part004.resolveUpDownViaSlug, hd, hloop4]
    rw [lastStrD_eq]
    have hmap : (((candidateStarts (floorToWindowStart env4.nowSec d) d).flatMap
          fun ts => (aliasesFor asset).map fun a => (ts, a)).map
            fun p => g (mkSlug p.2 interval p.1))
        = (genSlugCandidates (aliasesFor asset) interval
            (candidateStarts (floorToWindowStart env4.nowSec d) d)).map g := by
      rw [← pairs_map_slug, List.map_map]
      rfl
    rw [hmap, List.getLast?_map]
    rcases hL : (genSlugCandidates (aliasesFor asset) interval
        (candidateStarts (floorToWindowStart env4.nowSec d) d)).getLast? with _ | s0
    · exfalso
      have hnil := List.getLast?_eq_none_iff.mp hL
      have hlen := genSlugCandidates_length (aliasesFor asset) interval
        (candidateStarts (floorToWindowStart env4.nowSec d) d)
      rw [hnil] at hlen
      simp only [candidateStarts, List.length_cons, List.length_singleton,
        List.length_nil] at hlen
      omega
    · simp

/-- Witness for C5 at concrete all-404 environments (btc, 5m, server time
1700000300). -/
theorem C5_exhaustion_trail_witness :
    ((Journal.resolveUpDownBySlug
        { nowSec := 1700000300,
          eventBySlug := fun s => .error ("HTTP 404 " ++ s),
          midpoints := fun _ => .error "unused" }
        numberSample (fun _ => none) "btc" "5m").1.found = false)
    ∧ (Journal.resolveUpDownBySlug
        { nowSec := 1700000300,
          eventBySlug := fun s => .error ("HTTP 404 " ++ s),
          midpoints := fun _ => .error "unused" }
        numberSample (fun _ => none) "btc" "5m").1.triedSlugs.length
      = (aliasesFor "btc").length * 3
    ∧ ((Part004.resolveUpDownViaSlug
        { nowSec := 1700000300,
          eventBySlug := fun s => .error ("HTTP 404 " ++ s),
          midpoints := fun _ => .error "unused" }
        numberSample (fun _ => none) "btc" "5m").1.found = false) :=
  ⟨(C5_exhaustion_trail
      { nowSec := 1700000300,
        eventBySlug := fun s => .error ("HTTP 404 " ++ s),
        midpoints := fun _ => .error "unused" }
      { nowSec := 1700000300,
        eventBySlug := fun s => .error ("HTTP 404 " ++ s),
        midpoints := fun _ => .error "unused" }
      numberSample (fun _ => none) "btc" "5m" 300
      (fun s => "HTTP 404 " ++ s) (fun s => "HTTP 404 " ++ s)
      (by decide) (fun _ => rfl) (fun _ => rfl)).1,
   (C5_exhaustion_trail
      { nowSec := 1700000300,
        eventBySlug := fun s => .error ("HTTP 404 " ++ s),
        midpoints := fun _ => .error "unused" }
      { nowSec := 1700000300,
        eventBySlug := fun s => .error ("HTTP 404 " ++ s),
        midpoints := fun _ => .error "unused" }
      numberSample (fun _ => none) "btc" "5m" 300
      (fun s => "HTTP 404 " ++ s) (fun s => "HTTP 404 " ++ s)
      (by decide) (fun _ => rfl) (fun _ => rfl)).2.2.1,
   (C5_exhaustion_trail
      { nowSec := 1700000300,
        eventBySlug := fun s => .error ("HTTP 404 " ++ s),
        midpoints := fun _ => .error "unused" }
      { nowSec := 1700000300,
        eventBySlug := fun s => .error ("HTTP 404 " ++ s),
        midpoints := fun _ => .error "unused" }
      numberSample (fun _ => none) "btc" "5m" 300
      (fun s => "HTTP 404 " ++ s) (fun s => "HTTP 404 " ++ s)
      (by decide) (fun _ => rfl) (fun _ => rfl)).2.2.2.2.1⟩

/-- Counterexample to C6 as stated: part_003's price extraction records a
finite value OUTSIDE [0,1] as that value (2.5), not as null. -/
theorem C6_counterexample :
    Part003.priceOf numberSample (fun _ => some (.num (5/2))) "u" = some (5/2)
    ∧ ¬ ((5 : ℚ)/2 ≤ 1) := by
  refine ⟨rfl, by norm_num⟩

/-- C6 (amended): a missing price entry yields null; a present entry is
converted by `Number` and kept in part_003/part_001 style only when
finite (non-numeric becomes null) while journal.js style records the raw
conversion (possibly NaN) and nulls only missing/JSON-null entries; a
finite value outside [0,1] passes through unchanged; and a validated
market resolves with `found = true` for every midpoint map whatsoever, so
prices may be null with the resolution still succeeding. -/
theorem C6_price_null_semantics (numConv : NumberConv)
    (prices : String → Option JVal) (mids : JVal → Option JVal)
    (tok : String) (tokJ : JVal) :
    (prices tok = none → Part003.priceOf numConv prices tok = none)
    ∧ (∀ v, prices tok = some v →
        Part003.priceOf numConv prices tok = (numConv v).finiteOrNull)
    ∧ (∀ v, prices tok = some v → (numConv v).isFinite = false →
        Part003.priceOf numConv prices tok = none)
    ∧ (∀ v q, prices tok = some v → numConv v = .val q →
        Part003.priceOf numConv prices tok = some q)
    ∧ (mids tokJ = none → Journal.midOf numConv mids tokJ = none)
    ∧ (mids tokJ = some .null → Journal.midOf numConv mids tokJ = none)
    ∧ (∀ v, mids tokJ = some v → v ≠ .null →
        Journal.midOf numConv mids tokJ = some (numConv v))
    ∧ (∀ (env : GammaClobEnv) (parse : JsonParse) (interval a : String) (ts : ℤ)
        (restPairs : List (ℤ × String)) (tried : List String) (le : Option String)
        (ev : Event) (market : Market) (u dn : JVal) (restIds : List JVal)
        (midsMap : JVal → Option JVal),
        env.eventBySlug (mkSlug a interval ts) = .ok ev →
        pickBestMarketFromEvent parse ev = some market →
        parseTokenIdsFromMarket parse market = u :: dn :: restIds →
        ([u, dn].filter JVal.truthy).isEmpty = false →
        env.midpoints ([u, dn].filter JVal.truthy) = .ok midsMap →
        (Journal.slugLoop env numConv parse interval
            ((ts, a) :: restPairs) tried le).1.found = true) := by
  refine ⟨?_, ?_, ?_, ?_, ?_, ?_, ?_, ?_⟩
  · intro h; simp [Part003.priceOf, h, JNum.finiteOrNull]
  · intro v h; simp [Part003.priceOf, h]
  · intro v h hfin
    simp only [Part003.priceOf, h]
    cases hv : numConv v <;> simp_all [JNum.isFinite, JNum.finiteOrNull]
  · intro v q h hval; simp [Part003.priceOf, h, hval, JNum.finiteOrNull]
  · intro h; simp [Journal.midOf, h]
  · intro h; simp [Journal.midOf, h]
  · intro v h hne
    cases v <;> simp_all [Journal.midOf]
  · intro env parse interval a ts restPairs tried le ev market u dn restIds midsMap
      hev hpick hids hne hmid
    simp [Journal.slugLoop, hev, hpick, hids, clobMidpoints, hne, hmid]

/-- Counterexample to C7 as stated: when the batch price call fails, NO
per-token lookups are issued — the trace holds exactly the one batch call
covering both token ids, and no call with a single token id. -/
theorem C7_counterexample :
    ((Part001.priceStep numberSample
        { upTokenId := "u", downTokenId := "d",
          upPrice := .val (11/20), downPrice := .val (9/20) }
        (.error "HTTP 500")).2
      = [Part001.PriceCall.prices ["u", "d"]])
    ∧ ((Part001.priceStep numberSample
        { upTokenId := "u", downTokenId := "d",
          upPrice := .val (11/20), downPrice := .val (9/20) }
        (.error "HTTP 500")).2.countP (fun c => c.ids.length == 1) = 0) :=
  ⟨rfl, rfl⟩

/-- C7 (amended): the price fetcher performs exactly one batch call
covering both token ids — on success and on failure alike — and never any
per-token call; a failed batch leaves the (finiteness-filtered) snapshot
prices in place, and on success each batch value overrides the snapshot
exactly when its `Number` conversion is finite. -/
theorem C7_single_batch_no_fallback (numConv : NumberConv)
    (info : Part001.TokenInfo) (batch : Except String (String → Option JVal)) :
    ((Part001.priceStep numConv info batch).2
        = [Part001.PriceCall.prices [info.upTokenId, info.downTokenId]])
    ∧ (∀ c ∈ (Part001.priceStep numConv info batch).2, c.ids.length = 2)
    ∧ (∀ e, batch = .error e →
        (Part001.priceStep numConv info batch).1
          = (info.upPrice.finiteOrNull, info.downPrice.finiteOrNull))
    ∧ (∀ prices q, batch = .ok prices →
        (match prices info.upTokenId with
          | some v => numConv v
          | none => JNum.nan) = .val q →
        (Part001.priceStep numConv info batch).1.1 = some q)
    ∧ (∀ prices, batch = .ok prices →
        (match prices info.upTokenId with
          | some v => numConv v
          | none => JNum.nan).isFinite = false →
        (Part001.priceStep numConv info batch).1.1 = info.upPrice.finiteOrNull)
    ∧ (∀ prices q, batch = .ok prices →
        (match prices info.downTokenId with
          | some v => numConv v
          | none => JNum.nan) = .val q →
        (Part001.priceStep numConv info batch).1.2 = some q)
    ∧ (∀ prices, batch = .ok prices →
        (match prices info.downTokenId with
          | some v => numConv v
          | none => JNum.nan).isFinite = false →
        (Part001.priceStep numConv info batch).1.2 = info.downPrice.finiteOrNull) := by
  refine ⟨?_, ?_, ?_, ?_, ?_, ?_, ?_⟩
  · cases batch <;> rfl
  · intro c hc
    cases batch <;> simp [Part001.priceStep] at hc <;>
      simp [hc, Part001.PriceCall.ids]
  · intro e h; rw [h]; rfl
  · intro prices q h hval
    rw [h]
    simp only [Part001.priceStep]
    rw [hval]
  · intro prices h hfin
    rw [h]
    simp only [Part001.priceStep]
    rcases hv : (match prices info.upTokenId with
      | some v => numConv v
      | none => JNum.nan) with _ | _ | _ | q <;> simp_all [JNum.isFinite]
  · intro prices q h hval
    rw [h]
    simp only [Part001.priceStep]
    rw [hval]
  · intro prices h hfin
    rw [h]
    simp only [Part001.priceStep]
    rcases hv : (match prices info.downTokenId with
      | some v => numConv v
      | none => JNum.nan) with _ | _ | _ | q <;> simp_all [JNum.isFinite]

/-- Counterexample to C8 as stated: an unknown asset ("doge") does not
fail fast before any network call — the resolver proceeds, its first
network call is the CLOB time fetch, and it then tries 3 slug candidates
built from the unknown asset itself. -/
theorem C8_counterexample :
    ((Journal.resolveUpDownBySlug
        { nowSec := 1700000300,
          eventBySlug := fun s => .error ("HTTP 404 " ++ s),
          midpoints := fun _ => .error "unused" }
        numberSample (fun _ => none) "doge" "5m").2.head? = some NetCall.timeCall)
    ∧ ((Journal.resolveUpDownBySlug
        { nowSec := 1700000300,
          eventBySlug := fun s => .error ("HTTP 404 " ++ s),
          midpoints := fun _ => .error "unused" }
        numberSample (fun _ => none) "doge" "5m").1.triedSlugs.length = 3) :=
  ⟨rfl, by decide⟩

/-- C8 (amended): an unsupported interval fails fast — both deterministic
resolvers return `found = false` with an empty trace (no network call),
and part_003's `intervalToSeconds` throws before any network call — but
an unknown asset does NOT fail: whenever the interval is supported, the
first network call (the time fetch) is issued regardless of the asset,
the unknown asset serving as its own single alias. -/
theorem C8_interval_failfast (envJ : GammaClobEnv) (env4 : Part004.Env)
    (numConv : NumberConv) (parse : JsonParse) (asset interval : String) :
    (INTERVAL_SECONDS interval = none →
      Journal.resolveUpDownBySlug envJ numConv parse asset interval
        = ({ found := false, triedSlugs := [],
             lastError := some ("Unsupported interval: " ++ interval
               ++ " (supported: 5m, 15m)") }, [])
      ∧ Part004.resolveUpDownViaSlug env4 numConv parse asset interval
        = ({ found := false, triedSlugs := [],
             lastError := some ("Unsupported interval: " ++ interval) }, []))
    ∧ (∀ dd, INTERVAL_SECONDS interval = some dd →
        ((Journal.resolveUpDownBySlug envJ numConv parse asset interval).2.head?
            = some NetCall.timeCall
          ∧ (Part004.resolveUpDownViaSlug env4 numConv parse asset interval).2.head?
            = some NetCall.timeCall))
    ∧ (∀ i, Part003.INTERVAL_MAP (jsToLower i) = none →
        Part003.intervalToSeconds i = .error ("Unsupported interval: " ++ i)) := by
  refine ⟨?_, ?_, ?_⟩
  · intro h
    exact ⟨by simp [Journal.resolveUpDownBySlug, h],
           by simp [Part004.resolveUpDownViaSlug, h]⟩
  · intro dd h
    exact ⟨by simp [Journal.resolveUpDownBySlug, h],
           by simp [Part004.resolveUpDownViaSlug, h]⟩
  · intro i h
    simp [Part003.intervalToSeconds, h]

/-- Counterexample to C9 as stated: for an upstream value of 2·10^12
(a milliseconds-scale magnitude above 10^12), journal.js's
`clobServerTimeSec` and part_003's `getClobServerTimeSec` return the raw
value unchanged instead of dividing by 1000. -/
theorem C9_counterexample :
    Journal.clobServerTimeSec (.val 2000000000000) = .ok 2000000000000
    ∧ Part003.getClobServerTimeSec (.val 2000000000000) = .ok 2000000000000
    ∧ (2000000000000 : ℚ) ≠ 2000000000 := by
  refine ⟨rfl, rfl, by norm_num⟩

/-- C9 (amended): only part_001's `getClobServerTimeSec` performs the
magnitude-based normalisation (values above 10^12 are treated as
milliseconds and divided by 1000, everything floored to integer seconds);
journal.js's `clobServerTimeSec` and part_003's `getClobServerTimeSec`
return the parsed finite value unchanged; all three throw on a non-finite
parse. -/
theorem C9_time_normalization (q : ℚ) (n : JNum) :
    (Part001.getClobServerTimeSec (.val q)
        = .ok (if q > 1000000000000 then ⌊q / 1000⌋ else ⌊q⌋))
    ∧ (q > 1000000000000 → Part001.getClobServerTimeSec (.val q) = .ok ⌊q / 1000⌋)
    ∧ (¬ q > 1000000000000 → Part001.getClobServerTimeSec (.val q) = .ok ⌊q⌋)
    ∧ (Journal.clobServerTimeSec (.val q) = .ok q)
    ∧ (Part003.getClobServerTimeSec (.val q) = .ok q)
    ∧ (n.isFinite = false →
        Part001.getClobServerTimeSec n = .error "Invalid /time response"
        ∧ Journal.clobServerTimeSec n = .error "CLOB /time returned non-number"
        ∧ Part003.getClobServerTimeSec n = .error "Invalid /time response") := by
  refine ⟨rfl, ?_, ?_, rfl, rfl, ?_⟩
  · intro h
    simp [Part001.getClobServerTimeSec, h]
  · intro h
    simp [Part001.getClobServerTimeSec, h]
  · intro h
    cases n <;> simp_all [JNum.isFinite] <;>
      exact ⟨rfl, rfl, rfl⟩

/-- Counterexample to C10 as stated: a string payload that is not numeric
("abc") yields `Math.floor(Number("abc"))` = NaN — neither an integer
number of seconds nor the local-clock fallback (which would be
1700000000 for `Date.now()` = 1700000000500). -/
theorem C10_counterexample :
    Part004.clobTimeSeconds (fun _ => JNum.nan) 1700000000500 (.str "abc") = JNum.nan
    ∧ JNum.nan ≠ JNum.val 1700000000
    ∧ JNum.val ⌊(1700000000500 : ℚ) / 1000⌋ = JNum.val 1700000000 := by
  refine ⟨rfl, by decide, by norm_num⟩

/-- C10 (amended): `clobTimeSeconds` never throws; a number payload is
floored, an object payload with a numeric `timestamp` or `time` field is
floored, and every other non-string shape falls back to the floored local
clock — but a string payload becomes `Math.floor(Number(s))`, which is
NaN (not an integer and not the local-clock fallback) when the string is
not numeric. -/
theorem C10_time_payload (strNum : String → JNum) (localNowMs : ℚ) :
    (∀ q, Part004.clobTimeSeconds strNum localNowMs (.num q) = .val ⌊q⌋)
    ∧ (∀ s, Part004.clobTimeSeconds strNum localNowMs (.str s) = (strNum s).floor)
    ∧ (∀ s, strNum s = JNum.nan →
        Part004.clobTimeSeconds strNum localNowMs (.str s) = JNum.nan)
    ∧ (∀ fields q, Part004.lookupField fields "timestamp" = some (.num q) →
        Part004.clobTimeSeconds strNum localNowMs (.obj fields) = .val ⌊q⌋)
    ∧ (∀ fields q, (∀ v, Part004.lookupField fields "timestamp" ≠ some (.num v)) →
        Part004.lookupField fields "time" = some (.num q) →
        Part004.clobTimeSeconds strNum localNowMs (.obj fields) = .val ⌊q⌋)
    ∧ (∀ fields, (∀ v, Part004.lookupField fields "timestamp" ≠ some (.num v)) →
        (∀ v, Part004.lookupField fields "time" ≠ some (.num v)) →
        Part004.clobTimeSeconds strNum localNowMs (.obj fields)
          = .val ⌊localNowMs / 1000⌋)
    ∧ (Part004.clobTimeSeconds strNum localNowMs .null = .val ⌊localNowMs / 1000⌋)
    ∧ (∀ b, Part004.clobTimeSeconds strNum localNowMs (.boolean b)
        = .val ⌊localNowMs / 1000⌋)
    ∧ (∀ xs, Part004.clobTimeSeconds strNum localNowMs (.arr xs)
        = .val ⌊localNowMs / 1000⌋) := by
  refine ⟨fun _ => rfl, fun _ => rfl, ?_, ?_, ?_, ?_, rfl, fun _ => rfl, fun _ => rfl⟩
  · intro s h
    simp [Part004.clobTimeSeconds, h, JNum.floor]
  · intro fields q h
    simp [Part004.clobTimeSeconds, h, JNum.floor]
  · intro fields q hts h
    simp only [Part004.clobTimeSeconds]
    rcases hl : Part004.lookupField fields "timestamp" with _ | v
    · simp [h, JNum.floor]
    · rcases v with _ | b | q' | s' | xs' | fl
      · simp [h, JNum.floor]
      · simp [h, JNum.floor]
      · exact absurd hl (hts _)
      · simp [h, JNum.floor]
      · simp [h, JNum.floor]
      · simp [h, JNum.floor]
  · intro fields hts htime
    simp only [Part004.clobTimeSeconds]
